import Mathlib

/-!
A shallow embedding, in Lean 4, of the core of the casm Cambridge-assembly
emulator (src/core/{parser,cpu,memory,instructions,runner}.py), together with
theorems settling the frozen claims about it.

Conventions of the embedding:
* Python strings are modelled as `List Char` while a line is being analysed
  and as `String` in record fields; `String.mk`/`String.toList` convert.
* Python `int` is `Int` (unbounded); counters that are always non-negative
  (step counts, sizes, line numbers) are `Nat`.
* `value & mask` with `mask = 2^w - 1` is written `value % 2^w` (`Int.emod`
  is non-negative for a positive modulus, exactly Python's `&` with an
  all-ones mask); `x << n` is `x * 2^n`; `x >> n` on a non-negative value is
  `x / 2^n` (written on `Nat`); `&`/`|`/`^` of two non-negative word-masked
  values are `Nat.land`/`Nat.lor`/`Nat.xor`.
* Python dicts are association lists kept in insertion order (`setA` updates
  an existing key in place, as dict assignment does).
* A raised exception is the `Except.error` branch; the runner's
  `except CASMError` surfaces as `Except.ok` of an error `RunResult`, while
  an exception that Python would NOT catch there (a built-in `ValueError` or
  `TypeError`, or the `MemoryAccessError` raised while merging data
  initializers outside both `try` blocks) is `Except.error` of `run_program`
  itself.
-/

namespace Casm

/-! ### Character and string helpers (Python `str` operations) -/

/-- Python's `\s` / `str.strip` whitespace set (ASCII part). -/
def isPySpace (c : Char) : Bool :=
  c = ' ' || c = '\t' || c = '\n' || c = '\r' || c = Char.ofNat 11 || c = Char.ofNat 12

/-- Python `str.lstrip()`. -/
def pyStripL (cs : List Char) : List Char := cs.dropWhile isPySpace

/-- Python `str.strip()`. -/
def pyStrip (cs : List Char) : List Char :=
  ((cs.dropWhile isPySpace).reverse.dropWhile isPySpace).reverse

/-- `_strip_comment`: keep the line up to the first `;`. -/
def stripCommentL (cs : List Char) : List Char := cs.takeWhile (fun c => c ≠ ';')

/-- `[A-Za-z_]`, the first character of a label. -/
def isIdentStart (c : Char) : Bool := c.isAlpha || c = '_'

/-- `[A-Za-z0-9_]`, the later characters of a label. -/
def isIdentChar (c : Char) : Bool := c.isAlphanum || c = '_'

/-- `int(s, 10)` on a string of decimal digits. -/
def digitsToNat (cs : List Char) : Nat := cs.foldl (fun a c => a * 10 + (c.toNat - 48)) 0

/-- `int(s, 2)` on a string of binary digits. -/
def bitsToNat (cs : List Char) : Nat := cs.foldl (fun a c => a * 2 + (c.toNat - 48)) 0

/-- Python `str.upper()` (ASCII). -/
def upperL (cs : List Char) : List Char := cs.map Char.toUpper

/-- Pack characters back into a `String`. -/
def asStr (cs : List Char) : String := String.mk cs

/-- Python `text.split(sep)` for a one-character separator: keeps empty pieces. -/
def splitOnChar (sep : Char) : List Char → List (List Char)
  | [] => [[]]
  | c :: rest =>
    let r := splitOnChar sep rest
    if c = sep then [] :: r
    else
      match r with
      | h :: t => (c :: h) :: t
      | [] => [[c]]

/-- The match of `^(\d+)(?:\s*:\s*|\s+)(.*)$` against a stripped line: the
explicit address prefix and the rest of the line (group 2, spaces of the
separator consumed). -/
def matchAddr (cs : List Char) : Option (Nat × List Char) :=
  let ds := cs.takeWhile Char.isDigit
  if ds.isEmpty then none
  else
    let rest := cs.drop ds.length
    let afterSp := rest.dropWhile isPySpace
    match afterSp with
    | ':' :: t => some (digitsToNat ds, t.dropWhile isPySpace)
    | _ => if rest.length ≠ afterSp.length then some (digitsToNat ds, afterSp) else none

/-- The match of `^([A-Za-z_][A-Za-z0-9_]*):\s*(.*)$`: the label name and the
rest of the line after the colon (leading spaces consumed). -/
def matchLabel (cs : List Char) : Option (List Char × List Char) :=
  match cs with
  | [] => none
  | c :: _ =>
    if isIdentStart c then
      let ident := cs.takeWhile isIdentChar
      match cs.drop ident.length with
      | ':' :: t => some (ident, t.dropWhile isPySpace)
      | _ => none
    else none

/-! ### Errors (src/core/errors.py)

`errors.py` under src/ declares `CASMError` and its subclasses down to
`AddressConflict`; `InvalidBinaryLiteral`, `OperandTypeError` and
`InvalidShiftAmount` are imported by the parser and the tests but their class
declarations are not in the staged file, so those three kinds are modelled
from the spec ("malformed binary is a distinct error from not numeric",
"a typed operand error distinct from a missing-operand error", "invalid
shift amount" in the parse-error list) as further distinct kinds.
`pyValueError`/`pyTypeError` stand for Python's built-in exceptions, which
`except CASMError` does not catch. -/

inductive ErrKind where
  | parseErr
  | unknownOpcode
  | invalidOperand
  | addressConflict
  | invalidBinaryLiteral
  | operandTypeErr
  | invalidShiftAmount
  | runtimeErr
  | memoryAccess
  | stepLimit
  | jumpWithoutCompare
  | inputUnderflow
  | pyValueError
  | pyTypeError
deriving DecidableEq, Repr

/-- A raised `CASMError` (kind stands for the Python class; `step`, `addr`,
`source_line_no`, `source_text` are the constructor's keyword arguments,
defaulting to 0, 0, None, None). -/
structure CASMError where
  kind : ErrKind
  message : String
  step : Int := 0
  addr : Int := 0
  source_line_no : Option Nat := none
  source_text : Option String := none
deriving DecidableEq, Repr

/-- The kinds `except CASMError` catches (everything but Python's built-ins). -/
def isCASMKind (k : ErrKind) : Bool :=
  !(k = ErrKind.pyValueError || k = ErrKind.pyTypeError)

/-- Equality of `Except` outcomes is decidable (used to settle concrete runs
by `decide`). -/
instance {ε α : Type} [DecidableEq ε] [DecidableEq α] : DecidableEq (Except ε α) := fun a b =>
  match a, b with
  | Except.ok x, Except.ok y =>
    if h : x = y then Decidable.isTrue (congrArg Except.ok h)
    else Decidable.isFalse fun hc => h (Except.ok.inj hc)
  | Except.error x, Except.error y =>
    if h : x = y then Decidable.isTrue (congrArg Except.error h)
    else Decidable.isFalse fun hc => h (Except.error.inj hc)
  | Except.ok _, Except.error _ => Decidable.isFalse fun hc => Except.noConfusion hc
  | Except.error _, Except.ok _ => Decidable.isFalse fun hc => Except.noConfusion hc

/-! ### Association lists standing for Python dicts -/

/-- Dict lookup. -/
def lookupA {β : Type} : List (Int × β) → Int → Option β
  | [], _ => none
  | (k, v) :: t, a => if k = a then some v else lookupA t a

/-- Dict lookup with string keys. -/
def lookupS {β : Type} : List (String × β) → String → Option β
  | [], _ => none
  | (k, v) :: t, a => if k = a then some v else lookupS t a

/-- Dict assignment `d[k] = v`: updates an existing key in place, else appends. -/
def setA {β : Type} : List (Int × β) → Int → β → List (Int × β)
  | [], k, v => [(k, v)]
  | (k0, v0) :: t, k, v => if k0 = k then (k0, v) :: t else (k0, v0) :: setA t k v

/-- Dict assignment with string keys. -/
def setS {β : Type} : List (String × β) → String → β → List (String × β)
  | [], k, v => [(k, v)]
  | (k0, v0) :: t, k, v => if k0 = k then (k0, v) :: t else (k0, v0) :: setS t k v

/-! ### Parser (src/core/parser.py) -/

def VALID_OPCODES : List String :=
  ["LDM", "LDD", "LDI", "LDX", "LDR", "MOV", "STO", "END", "IN", "OUT",
   "ADD", "SUB", "INC", "DEC", "CMP", "CMI", "JMP", "JPE", "JPN",
   "LSL", "LSR", "AND", "OR", "XOR"]

def SHIFT_OPCODES : List String := ["LSL", "LSR"]

def BITWISE_OPCODES : List String := ["AND", "OR", "XOR"]

def OPCODES_WITH_OPERAND : List String :=
  ["LDM", "LDD", "LDI", "LDX", "LDR", "STO", "ADD", "SUB", "CMP", "CMI",
   "JMP", "JPE", "JPN", "LSL", "LSR", "AND", "OR", "XOR"]

def OPCODES_WITH_REGISTER_OPERAND : List String := ["INC", "DEC", "LDR", "MOV"]

def OPCODES_NO_OPERAND : List String := ["IN", "OUT", "END"]

/-- A parsed instruction (the `Instruction` dataclass). -/
structure Instruction where
  addr : Int
  opcode : String
  operand : Option String
  operand_value : Option Int
  operand_type : String
  source_line_no : Nat
  source_text : String
  clean_text : String
deriving DecidableEq, Repr

/-- The `ParsedProgram` dataclass; the two dicts keep insertion order. -/
structure ParsedProgram where
  instructions : List (Int × Instruction)
  labels : List (String × Int)
  initial_memory : List (Int × Int)
  start_address : Int
  end_address : Int
deriving DecidableEq, Repr

/-- Outcome of `_parse_numeric_literal`: a value, a recoverable `ValueError`,
or the propagated `InvalidBinaryLiteral`. -/
inductive NumLitOut where
  | ok (v : Int)
  | valueError
  | invalidBinary (e : CASMError)
deriving DecidableEq, Repr

/-- `_parse_numeric_literal(text, line_no, source_text, allow_binary)`. -/
def parseNumericLiteralL (text : List Char) (line_no : Nat) (source_text : List Char)
    (allow_binary : Bool) : NumLitOut :=
  match pyStrip text with
  | [] => NumLitOut.valueError
  | c0 :: t0 =>
    -- strip one leading '#', then strip again
    match (if c0 = '#' then pyStrip t0 else c0 :: t0) with
    | [] => NumLitOut.valueError
    | c1 :: t1 =>
      let sign : Int := if c1 = '-' then -1 else 1
      match (if c1 = '-' ∨ c1 = '+' then t1 else c1 :: t1) with
      | [] => NumLitOut.valueError
      | c :: bits =>
        if allow_binary && (c = 'B' || c = 'b') then
          if bits.isEmpty || !(bits.all fun b => b = '0' || b = '1') then
            NumLitOut.invalidBinary
              { kind := ErrKind.invalidBinaryLiteral,
                message := "Invalid binary literal: " ++ asStr text,
                source_line_no := some line_no, source_text := some (asStr source_text) }
          else NumLitOut.ok (sign * (bitsToNat bits : Int))
        else
          if (c :: bits).all Char.isDigit then
            NumLitOut.ok (sign * (digitsToNat (c :: bits) : Int))
          else NumLitOut.valueError

/-- `_try_parse_numeric_literal`: `ValueError` becomes `none`,
`InvalidBinaryLiteral` propagates. -/
def tryParseNumericLiteralL (text : List Char) (line_no : Nat) (source_text : List Char)
    (allow_binary : Bool) : Except CASMError (Option Int) :=
  match parseNumericLiteralL text line_no source_text allow_binary with
  | NumLitOut.ok v => Except.ok (some v)
  | NumLitOut.valueError => Except.ok none
  | NumLitOut.invalidBinary e => Except.error e

/-- The operand-scanning part of `_parse_instruction`: for a non-empty operand
string, its (possibly upper-cased) text, resolved value and operand type. -/
def parseOperand (opcode : String) (ops : List Char) (line_no : Nat)
    (original_text : List Char) (labels : List (String × Int)) :
    Except CASMError (List Char × Option Int × String) :=
  match ops with
  | '#' :: lit =>
    match parseNumericLiteralL lit line_no original_text true with
    | NumLitOut.invalidBinary e => Except.error e
    | NumLitOut.ok v => Except.ok (ops, some v, "immediate")
    | NumLitOut.valueError =>
      if opcode ∈ SHIFT_OPCODES then
        Except.error
          { kind := ErrKind.invalidShiftAmount,
            message := opcode ++ " requires a numeric immediate shift amount",
            source_line_no := some line_no, source_text := some (asStr original_text) }
      else
        Except.error
          { kind := ErrKind.invalidOperand,
            message := "Invalid immediate value: " ++ asStr ops,
            source_line_no := some line_no, source_text := some (asStr original_text) }
  | _ =>
    let opsU := upperL ops
    if asStr opsU = "ACC" || asStr opsU = "IX" then Except.ok (opsU, none, "register")
    else
      match parseNumericLiteralL ops line_no original_text false with
      | NumLitOut.invalidBinary e => Except.error e
      | NumLitOut.ok v => Except.ok (ops, some v, "direct")
      | NumLitOut.valueError =>
        match lookupS labels (asStr opsU) with
        | some a => Except.ok (ops, some a, "direct")
        | none => Except.ok (ops, none, "direct")

/-- `_parse_instruction(text, addr, line_no, original_text, clean_text, labels)`. -/
def parseInstructionL (text : List Char) (addr : Int) (line_no : Nat)
    (original_text : List Char) (clean_text : List Char)
    (labels : List (String × Int)) : Except CASMError Instruction := do
  -- parts = text.split(None, 1)
  let t0 := pyStripL text
  if t0.isEmpty then
    throw { kind := ErrKind.parseErr, message := "Empty instruction",
            source_line_no := some line_no, source_text := some (asStr original_text) }
  let tok := t0.takeWhile (fun c => !(isPySpace c))
  let rest := pyStripL (t0.drop tok.length)
  let opcode := asStr (upperL tok)
  if opcode ∉ VALID_OPCODES then
    throw { kind := ErrKind.unknownOpcode, message := "Unknown opcode: " ++ opcode,
            source_line_no := some line_no, source_text := some (asStr original_text) }
  let scanned : Option (List Char × Option Int × String) ←
    match rest.isEmpty with
    | true => pure none
    | false => do
      let r ← parseOperand opcode (pyStrip rest) line_no original_text labels
      pure (some r)
  let operand_str : Option String := scanned.map fun r => asStr r.1
  let operand_value : Option Int := match scanned with
    | some r => r.2.1
    | none => none
  let operand_type : String := match scanned with
    | some r => r.2.2
    | none => "none"
  if opcode ∈ OPCODES_NO_OPERAND ∧ operand_str.isSome then
    throw { kind := ErrKind.invalidOperand, message := opcode ++ " does not take an operand",
            source_line_no := some line_no, source_text := some (asStr original_text) }
  if opcode ∈ OPCODES_WITH_OPERAND ∧ opcode ∉ OPCODES_WITH_REGISTER_OPERAND then
    if operand_str.isNone then
      throw { kind := ErrKind.invalidOperand, message := opcode ++ " requires an operand",
              source_line_no := some line_no, source_text := some (asStr original_text) }
    -- the if/elif chain of operand-type checks
    if (opcode = "LDM" ∨ opcode = "LDR") ∧ operand_type = "immediate" then
      pure ()
    else if opcode = "LDR" ∧ operand_type = "register" ∧ operand_str = some "ACC" then
      pure ()
    else if (opcode = "ADD" ∨ opcode = "SUB" ∨ opcode = "CMP")
        ∧ (operand_type = "immediate" ∨ operand_type = "direct") then
      pure ()
    else if opcode ∈ BITWISE_OPCODES then
      if ¬(operand_type = "immediate" ∨ operand_type = "direct") then
        throw { kind := ErrKind.operandTypeErr,
                message := opcode ++ " requires an immediate or direct operand",
                source_line_no := some line_no, source_text := some (asStr original_text) }
      else pure ()
    else if opcode ∈ SHIFT_OPCODES then
      if operand_type ≠ "immediate" then
        throw { kind := ErrKind.operandTypeErr,
                message := opcode ++ " requires an immediate shift amount",
                source_line_no := some line_no, source_text := some (asStr original_text) }
      else pure ()
    else if opcode ∈ (["LDD", "LDI", "LDX", "STO", "CMI", "JMP", "JPE", "JPN"] : List String) then
      if operand_type ≠ "direct" then
        throw { kind := ErrKind.invalidOperand,
                message := opcode ++ " requires a direct address",
                source_line_no := some line_no, source_text := some (asStr original_text) }
      else pure ()
    else pure ()
  if opcode ∈ OPCODES_WITH_REGISTER_OPERAND ∧ operand_str.isSome then
    if opcode = "MOV" ∧ operand_str ≠ some "IX" then
      throw { kind := ErrKind.invalidOperand, message := "MOV only accepts IX as operand",
              source_line_no := some line_no, source_text := some (asStr original_text) }
    if (opcode = "INC" ∨ opcode = "DEC")
        ∧ operand_str ≠ some "ACC" ∧ operand_str ≠ some "IX" then
      throw { kind := ErrKind.invalidOperand, message := opcode ++ " only accepts ACC or IX",
              source_line_no := some line_no, source_text := some (asStr original_text) }
  pure { addr := addr, opcode := opcode, operand := operand_str,
         operand_value := operand_value, operand_type := operand_type,
         source_line_no := line_no, source_text := asStr original_text,
         clean_text := asStr clean_text }

/-- First pass of `parse_program`: detect address modes and check label names
against the pre-supplied `labels` dict (which this pass never extends).
Returns `(has_explicit_addresses, has_sequential_addresses)`. -/
def pass1 (labels0 : List (String × Int)) :
    List (List Char) → Nat → Bool → Bool → Except CASMError (Bool × Bool)
  | [], _, he, hs => Except.ok (he, hs)
  | line :: rest, line_no, he, hs =>
    let stripped := pyStrip (stripCommentL line)
    if stripped.isEmpty then pass1 labels0 rest (line_no + 1) he hs
    else
      let (he', hs', restTxt) :=
        match matchAddr stripped with
        | some (_, r) => (true, hs, pyStrip r)
        | none => (he, true, stripped)
      match matchLabel restTxt with
      | some (name, _) =>
        let label_name := asStr (upperL name)
        if (lookupS labels0 label_name).isSome then
          Except.error
            { kind := ErrKind.addressConflict, message := "Duplicate label: " ++ label_name,
              source_line_no := some line_no, source_text := some (asStr (pyStrip line)) }
        else pass1 labels0 rest (line_no + 1) he' hs'
      | none => pass1 labels0 rest (line_no + 1) he' hs'

/-- The mutable state of `parse_program`'s second pass. -/
structure P2State where
  instructions : List (Int × Instruction)
  initial_memory : List (Int × Int)
  labels : List (String × Int)
  current_addr : Int
deriving DecidableEq, Repr

/-- One line of `parse_program`'s second pass. -/
def pass2Step (has_explicit_addresses : Bool) (st : P2State) (line_no : Nat)
    (line : List Char) : Except CASMError P2State :=
  let stripped := pyStrip (stripCommentL line)
  if stripped.isEmpty then Except.ok st
  else
    let original_text := pyStrip line
    let (addr, instruction_text) : Int × List Char :=
      match matchAddr stripped with
      | some (a, r) => ((a : Int), pyStrip r)
      | none => (st.current_addr, stripped)
    let (labels1, instruction_text) : List (String × Int) × List Char :=
      match matchLabel instruction_text with
      | some (name, r) => (setS st.labels (asStr (upperL name)) addr, pyStrip r)
      | none => (st.labels, instruction_text)
    if instruction_text.isEmpty then
      -- address/label only line
      Except.ok { st with
                  labels := labels1,
                  current_addr :=
                    if ¬has_explicit_addresses then st.current_addr + 1 else addr + 1 }
    else
      match tryParseNumericLiteralL instruction_text line_no original_text true with
      | Except.error e => Except.error e
      | Except.ok (some data_value) =>
        Except.ok { st with
                    labels := labels1,
                    initial_memory := setA st.initial_memory addr data_value,
                    current_addr := addr + 1 }
      | Except.ok none =>
        match parseInstructionL instruction_text addr line_no original_text
            instruction_text labels1 with
        | Except.error e => Except.error e
        | Except.ok instruction =>
          if (lookupA st.instructions addr).isSome then
            Except.error
              { kind := ErrKind.addressConflict,
                message := "Duplicate instruction at address " ++ toString addr,
                source_line_no := some line_no, source_text := some (asStr original_text) }
          else
            Except.ok { st with
                        instructions := setA st.instructions addr instruction,
                        labels := labels1,
                        current_addr :=
                          if ¬has_explicit_addresses then st.current_addr + 1 else addr + 1 }

/-- Second pass of `parse_program`, folded over the numbered lines. -/
def pass2 (has_explicit_addresses : Bool) :
    P2State → Nat → List (List Char) → Except CASMError P2State
  | st, _, [] => Except.ok st
  | st, line_no, line :: rest =>
    match pass2Step has_explicit_addresses st line_no line with
    | Except.error e => Except.error e
    | Except.ok st' => pass2 has_explicit_addresses st' (line_no + 1) rest

/-- Third pass: resolve a direct operand that is still an unresolved label. -/
def resolveInstr (labels : List (String × Int)) (instruction : Instruction) :
    Except CASMError Instruction :=
  if instruction.operand.isSome ∧ instruction.operand_value = none
      ∧ instruction.operand_type = "direct" then
    let label := asStr (upperL (instruction.operand.getD "").toList)
    match lookupS labels label with
    | some a => Except.ok { instruction with operand_value := some a }
    | none =>
      Except.error
        { kind := ErrKind.invalidOperand,
          message := "Unknown label: " ++ instruction.operand.getD "",
          source_line_no := some instruction.source_line_no,
          source_text := some instruction.source_text }
  else Except.ok instruction

/-- Third pass over the whole instruction table (keys and order unchanged). -/
def pass3 (labels : List (String × Int)) :
    List (Int × Instruction) → Except CASMError (List (Int × Instruction))
  | [] => Except.ok []
  | (a, i) :: t =>
    match resolveInstr labels i with
    | Except.error e => Except.error e
    | Except.ok i' =>
      match pass3 labels t with
      | Except.error e => Except.error e
      | Except.ok t' => Except.ok ((a, i') :: t')

/-- Insertion sort with `≤`, the sorted permutation Python's `sorted`/`list.sort`
produce (for integer keys the sorted permutation is unique). -/
def sortInts (l : List Int) : List Int := List.insertionSort (· ≤ ·) l

/-- `parse_program(text, start_address, labels)` (src/core/parser.py). -/
def parse_program (text : String) (start_address : Int)
    (labels0 : List (String × Int)) : Except CASMError ParsedProgram :=
  let lines := splitOnChar '\n' text.toList
  match pass1 labels0 lines 1 false false with
  | Except.error e => Except.error e
  | Except.ok (has_explicit_addresses, _) =>
    match pass2 has_explicit_addresses
        { instructions := [], initial_memory := [], labels := labels0,
          current_addr := start_address } 1 lines with
    | Except.error e => Except.error e
    | Except.ok st =>
      if st.instructions.isEmpty then
        Except.error { kind := ErrKind.parseErr, message := "Program contains no instructions" }
      else
        match pass3 st.labels st.instructions with
        | Except.error e => Except.error e
        | Except.ok instructions =>
          let addresses := sortInts (instructions.map Prod.fst)
          let start_addr := addresses.headD 0
          let end_addr := addresses.getLastD 0
          Except.ok { instructions := instructions,
                      labels := st.labels,
                      initial_memory := st.initial_memory,
                      start_address := start_addr,
                      end_address := end_addr }

/-! ### CPU (src/core/cpu.py) -/

/-- CPU state: registers plus the width/signedness configuration
(`_min_val`, `_max_val`, `_mask` are recomputed from the fields here rather
than cached). -/
structure CPU where
  word_bits : Nat
  signed : Bool
  acc : Int := 0
  ix : Int := 0
  pc : Int := 0
  flag : Option Bool := none
  ir : String := ""
  halted : Bool := false
deriving DecidableEq, Repr

/-- `self._max_val` of CPU. -/
def CPU.max_val (c : CPU) : Int :=
  if c.signed then (2 : Int) ^ (c.word_bits - 1) - 1 else (2 : Int) ^ c.word_bits - 1

/-- `CPU.normalize`: `value & mask` (written `% 2^w`), then reinterpret the
top bit as sign when signed. -/
def CPU.normalize (c : CPU) (value : Int) : Int :=
  let v := value % (2 : Int) ^ c.word_bits
  if c.signed ∧ v > c.max_val then v - (2 : Int) ^ c.word_bits else v

/-- `CPU.set_acc`. -/
def CPU.set_acc (c : CPU) (value : Int) : CPU := { c with acc := c.normalize value }

/-- `CPU.set_ix`. -/
def CPU.set_ix (c : CPU) (value : Int) : CPU := { c with ix := c.normalize value }

/-! ### Memory (src/core/memory.py) -/

/-- Linear memory; `data` has length `size`. -/
structure Memory where
  size : Nat
  word_bits : Nat
  signed : Bool
  data : List Int
deriving DecidableEq, Repr

/-- `self._max_val` of Memory. -/
def Memory.max_val (m : Memory) : Int :=
  if m.signed then (2 : Int) ^ (m.word_bits - 1) - 1 else (2 : Int) ^ m.word_bits - 1

/-- `Memory.normalize` (same code as `CPU.normalize`). -/
def Memory.normalize (m : Memory) (value : Int) : Int :=
  let v := value % (2 : Int) ^ m.word_bits
  if m.signed ∧ v > m.max_val then v - (2 : Int) ^ m.word_bits else v

/-- `Memory.__init__`: zero-filled array, then the `initial_values` entries
that are in bounds, normalized (out-of-range seed addresses are skipped). -/
def Memory.init (size : Nat) (word_bits : Nat) (signed : Bool)
    (initial_values : List (Int × Int)) : Memory :=
  initial_values.foldl
    (fun m p =>
      if 0 ≤ p.1 ∧ p.1 < (size : Int) then
        { m with data := m.data.set p.1.toNat (m.normalize p.2) }
      else m)
    { size := size, word_bits := word_bits, signed := signed,
      data := List.replicate size 0 }

/-- `Memory.read` with `_check_bounds`. -/
def Memory.read (m : Memory) (addr : Int) : Except CASMError Int :=
  if addr < 0 ∨ addr ≥ (m.size : Int) then
    Except.error { kind := ErrKind.memoryAccess,
                   message := "Memory address out of range: " ++ toString addr }
  else Except.ok (m.data.getD addr.toNat 0)

/-- `Memory.write` with `_check_bounds`; the stored value is normalized. -/
def Memory.write (m : Memory) (addr : Int) (value : Int) : Except CASMError Memory :=
  if addr < 0 ∨ addr ≥ (m.size : Int) then
    Except.error { kind := ErrKind.memoryAccess,
                   message := "Memory address out of range: " ++ toString addr }
  else Except.ok { m with data := m.data.set addr.toNat (m.normalize value) }

/-- `Memory.get_watched`: the in-bounds watched addresses with their values,
in watch-list order (Python keys them by `str(addr)`). -/
def Memory.get_watched (m : Memory) (addresses : List Int) : List (Int × Int) :=
  addresses.filterMap fun a =>
    if 0 ≤ a ∧ a < (m.size : Int) then some (a, m.data.getD a.toNat 0) else none

/-! ### I/O buffer (src/core/instructions.py, class IOBuffer) -/

structure IOBuffer where
  input : List Char
  input_pos : Nat := 0
  output : List Char := []
  last_in_code : Option Int := none
  last_out_code : Option Int := none
deriving DecidableEq, Repr

/-- `IOBuffer.read_char`; on underflow it raises after having reset
`last_in_code` to None (its caller runs right after `reset_io_codes`, which
already left it None, so the error state equals the entry state). -/
def IOBuffer.read_char (b : IOBuffer) : Except CASMError (Int × IOBuffer) :=
  let b := { b with last_in_code := none }
  if b.input_pos ≥ b.input.length then
    Except.error { kind := ErrKind.inputUnderflow, message := "Input buffer is empty" }
  else
    let code : Int := (b.input.getD b.input_pos ' ').toNat
    Except.ok (code, { b with input_pos := b.input_pos + 1, last_in_code := some code })

/-- `IOBuffer.write_char`: emits `chr(code & 0xFF)`. -/
def IOBuffer.write_char (b : IOBuffer) (code : Int) : IOBuffer :=
  let cd := code % 256
  { b with last_out_code := some cd, output := b.output ++ [Char.ofNat cd.toNat] }

/-- `IOBuffer.get_output`. -/
def IOBuffer.get_output (b : IOBuffer) : String := asStr b.output

/-- `IOBuffer.reset_io_codes`. -/
def IOBuffer.reset_io_codes (b : IOBuffer) : IOBuffer :=
  { b with last_in_code := none, last_out_code := none }

/-! ### Instruction semantics (src/core/instructions.py)

Each executor takes the shared mutable context (CPU, memory, I/O buffer) and
returns it with the optional new program counter, or a raised error. Every
raise in the Python executors happens before the first mutation inside that
executor, so an error leaves the context as the executor received it. -/

/-- The shared execution context passed to every executor. -/
structure Machine where
  cpu : CPU
  mem : Memory
  buf : IOBuffer
deriving DecidableEq, Repr

/-- Using a `None` operand value where Python would compute with it raises a
built-in `TypeError` (uncaught by the runner); unreachable for instructions
the parser accepts. -/
def getOpVal (v : Option Int) : Except CASMError Int :=
  match v with
  | some x => Except.ok x
  | none => Except.error { kind := ErrKind.pyTypeError,
                           message := "unsupported operand type: NoneType" }

/-- `_word_mask(cpu) = (1 << word_bits) - 1`, as the modulus `2^word_bits`. -/
def wordModulus (c : CPU) : Int := (2 : Int) ^ c.word_bits

/-- `_get_bitwise_operand`: the immediate or memory operand, masked to the
unsigned word width (`value & mask`, i.e. `value % 2^w`). -/
def get_bitwise_operand (instr : Instruction) (c : CPU) (m : Memory) :
    Except CASMError Int := do
  let value ←
    if instr.operand_type = "immediate" then getOpVal instr.operand_value
    else do
      let a ← getOpVal instr.operand_value
      m.read a
  pure (value % wordModulus c)

/-- `_get_shift_amount`. -/
def get_shift_amount (instr : Instruction) : Except CASMError Int :=
  if instr.operand_type ≠ "immediate" ∨ instr.operand_value = none then
    Except.error { kind := ErrKind.invalidShiftAmount,
                   message := "Shift amount must be immediate" }
  else
    let amount := instr.operand_value.getD 0
    if amount < 0 then
      Except.error { kind := ErrKind.invalidShiftAmount,
                     message := "Shift amount cannot be negative" }
    else Except.ok amount

def execute_ldm (instr : Instruction) (mc : Machine) :
    Except CASMError (Machine × Option Int) := do
  let v ← getOpVal instr.operand_value
  Except.ok ({ mc with cpu := mc.cpu.set_acc v }, none)

def execute_ldd (instr : Instruction) (mc : Machine) :
    Except CASMError (Machine × Option Int) := do
  let a ← getOpVal instr.operand_value
  let x ← mc.mem.read a
  Except.ok ({ mc with cpu := mc.cpu.set_acc x }, none)

def execute_ldi (instr : Instruction) (mc : Machine) :
    Except CASMError (Machine × Option Int) := do
  let a ← getOpVal instr.operand_value
  let indirect_addr ← mc.mem.read a
  let x ← mc.mem.read indirect_addr
  Except.ok ({ mc with cpu := mc.cpu.set_acc x }, none)

def execute_ldx (instr : Instruction) (mc : Machine) :
    Except CASMError (Machine × Option Int) := do
  let a ← getOpVal instr.operand_value
  let x ← mc.mem.read (a + mc.cpu.ix)
  Except.ok ({ mc with cpu := mc.cpu.set_acc x }, none)

def execute_ldr (instr : Instruction) (mc : Machine) :
    Except CASMError (Machine × Option Int) := do
  if instr.operand_type = "immediate" then do
    let v ← getOpVal instr.operand_value
    Except.ok ({ mc with cpu := mc.cpu.set_ix v }, none)
  else if instr.operand = some "ACC" then
    Except.ok ({ mc with cpu := mc.cpu.set_ix mc.cpu.acc }, none)
  else Except.ok (mc, none)

def execute_mov (_instr : Instruction) (mc : Machine) :
    Except CASMError (Machine × Option Int) :=
  Except.ok ({ mc with cpu := mc.cpu.set_ix mc.cpu.acc }, none)

def execute_sto (instr : Instruction) (mc : Machine) :
    Except CASMError (Machine × Option Int) := do
  let a ← getOpVal instr.operand_value
  let mem' ← mc.mem.write a mc.cpu.acc
  Except.ok ({ mc with mem := mem' }, none)

def execute_end (_instr : Instruction) (mc : Machine) :
    Except CASMError (Machine × Option Int) :=
  Except.ok ({ mc with cpu := { mc.cpu with halted := true } }, none)

def execute_in (_instr : Instruction) (mc : Machine) :
    Except CASMError (Machine × Option Int) := do
  let (code, buf') ← mc.buf.read_char
  Except.ok ({ mc with cpu := mc.cpu.set_acc code, buf := buf' }, none)

def execute_out (_instr : Instruction) (mc : Machine) :
    Except CASMError (Machine × Option Int) :=
  Except.ok ({ mc with buf := mc.buf.write_char mc.cpu.acc }, none)

def execute_add (instr : Instruction) (mc : Machine) :
    Except CASMError (Machine × Option Int) := do
  if instr.operand_type = "immediate" then do
    let v ← getOpVal instr.operand_value
    Except.ok ({ mc with cpu := mc.cpu.set_acc (mc.cpu.acc + v) }, none)
  else do
    let a ← getOpVal instr.operand_value
    let x ← mc.mem.read a
    Except.ok ({ mc with cpu := mc.cpu.set_acc (mc.cpu.acc + x) }, none)

def execute_sub (instr : Instruction) (mc : Machine) :
    Except CASMError (Machine × Option Int) := do
  if instr.operand_type = "immediate" then do
    let v ← getOpVal instr.operand_value
    Except.ok ({ mc with cpu := mc.cpu.set_acc (mc.cpu.acc - v) }, none)
  else do
    let a ← getOpVal instr.operand_value
    let x ← mc.mem.read a
    Except.ok ({ mc with cpu := mc.cpu.set_acc (mc.cpu.acc - x) }, none)

def execute_and (instr : Instruction) (mc : Machine) :
    Except CASMError (Machine × Option Int) := do
  let acc_val := mc.cpu.acc % wordModulus mc.cpu
  let operand ← get_bitwise_operand instr mc.cpu mc.mem
  Except.ok ({ mc with cpu := mc.cpu.set_acc (Nat.land acc_val.toNat operand.toNat : Nat) }, none)

def execute_or (instr : Instruction) (mc : Machine) :
    Except CASMError (Machine × Option Int) := do
  let acc_val := mc.cpu.acc % wordModulus mc.cpu
  let operand ← get_bitwise_operand instr mc.cpu mc.mem
  Except.ok ({ mc with cpu := mc.cpu.set_acc (Nat.lor acc_val.toNat operand.toNat : Nat) }, none)

def execute_xor (instr : Instruction) (mc : Machine) :
    Except CASMError (Machine × Option Int) := do
  let acc_val := mc.cpu.acc % wordModulus mc.cpu
  let operand ← get_bitwise_operand instr mc.cpu mc.mem
  Except.ok ({ mc with cpu := mc.cpu.set_acc (Nat.xor acc_val.toNat operand.toNat : Nat) }, none)

def execute_inc (instr : Instruction) (mc : Machine) :
    Except CASMError (Machine × Option Int) :=
  if instr.operand = some "IX" then
    Except.ok ({ mc with cpu := mc.cpu.set_ix (mc.cpu.ix + 1) }, none)
  else
    Except.ok ({ mc with cpu := mc.cpu.set_acc (mc.cpu.acc + 1) }, none)

def execute_dec (instr : Instruction) (mc : Machine) :
    Except CASMError (Machine × Option Int) :=
  if instr.operand = some "IX" then
    Except.ok ({ mc with cpu := mc.cpu.set_ix (mc.cpu.ix - 1) }, none)
  else
    Except.ok ({ mc with cpu := mc.cpu.set_acc (mc.cpu.acc - 1) }, none)

/-- `LSL #n`: `(acc_val << amount) & mask` written `(acc_val * 2^n) % 2^w`
on `Nat` (`acc_val = cpu.acc & mask` is non-negative). -/
def execute_lsl (instr : Instruction) (mc : Machine) :
    Except CASMError (Machine × Option Int) := do
  let amount ← get_shift_amount instr
  if amount ≥ (mc.cpu.word_bits : Int) then
    Except.ok ({ mc with cpu := mc.cpu.set_acc 0 }, none)
  else
    let acc_val : Nat := (mc.cpu.acc % wordModulus mc.cpu).toNat
    Except.ok
      ({ mc with cpu := mc.cpu.set_acc ((acc_val * 2 ^ amount.toNat) % 2 ^ mc.cpu.word_bits : Nat) },
       none)

/-- `LSR #n`: `acc_val >> amount` written `acc_val / 2^n` on `Nat`. -/
def execute_lsr (instr : Instruction) (mc : Machine) :
    Except CASMError (Machine × Option Int) := do
  let amount ← get_shift_amount instr
  if amount ≥ (mc.cpu.word_bits : Int) then
    Except.ok ({ mc with cpu := mc.cpu.set_acc 0 }, none)
  else
    let acc_val : Nat := (mc.cpu.acc % wordModulus mc.cpu).toNat
    Except.ok ({ mc with cpu := mc.cpu.set_acc (acc_val / 2 ^ amount.toNat : Nat) }, none)

/-- `CMP`: Python compares `cpu.acc == instr.operand_value`, an `int` against
an `Optional[int]`, so the immediate case is `operand_value == Some acc`. -/
def execute_cmp (instr : Instruction) (mc : Machine) :
    Except CASMError (Machine × Option Int) := do
  if instr.operand_type = "immediate" then
    Except.ok
      ({ mc with cpu := { mc.cpu with flag := some (instr.operand_value = some mc.cpu.acc) } },
       none)
  else do
    let a ← getOpVal instr.operand_value
    let x ← mc.mem.read a
    Except.ok ({ mc with cpu := { mc.cpu with flag := some (mc.cpu.acc = x) } }, none)

def execute_cmi (instr : Instruction) (mc : Machine) :
    Except CASMError (Machine × Option Int) := do
  let a ← getOpVal instr.operand_value
  let indirect_addr ← mc.mem.read a
  let x ← mc.mem.read indirect_addr
  Except.ok ({ mc with cpu := { mc.cpu with flag := some (mc.cpu.acc = x) } }, none)

def execute_jmp (instr : Instruction) (mc : Machine) :
    Except CASMError (Machine × Option Int) :=
  Except.ok (mc, instr.operand_value)

def execute_jpe (instr : Instruction) (mc : Machine) :
    Except CASMError (Machine × Option Int) :=
  match mc.cpu.flag with
  | none => Except.error { kind := ErrKind.jumpWithoutCompare,
                           message := "JPE executed without prior comparison" }
  | some true => Except.ok (mc, instr.operand_value)
  | some false => Except.ok (mc, none)

def execute_jpn (instr : Instruction) (mc : Machine) :
    Except CASMError (Machine × Option Int) :=
  match mc.cpu.flag with
  | none => Except.error { kind := ErrKind.jumpWithoutCompare,
                           message := "JPN executed without prior comparison" }
  | some true => Except.ok (mc, none)
  | some false => Except.ok (mc, instr.operand_value)

/-- `execute_instruction`: dispatch on the opcode; a missing executor is
Python's built-in `ValueError` (uncaught by the runner), unreachable as the
parser admits exactly the dispatched opcodes. -/
def execute_instruction (instr : Instruction) (mc : Machine) :
    Except CASMError (Machine × Option Int) :=
  if instr.opcode = "LDM" then execute_ldm instr mc
  else if instr.opcode = "LDD" then execute_ldd instr mc
  else if instr.opcode = "LDI" then execute_ldi instr mc
  else if instr.opcode = "LDX" then execute_ldx instr mc
  else if instr.opcode = "LDR" then execute_ldr instr mc
  else if instr.opcode = "MOV" then execute_mov instr mc
  else if instr.opcode = "STO" then execute_sto instr mc
  else if instr.opcode = "END" then execute_end instr mc
  else if instr.opcode = "IN" then execute_in instr mc
  else if instr.opcode = "OUT" then execute_out instr mc
  else if instr.opcode = "ADD" then execute_add instr mc
  else if instr.opcode = "SUB" then execute_sub instr mc
  else if instr.opcode = "AND" then execute_and instr mc
  else if instr.opcode = "OR" then execute_or instr mc
  else if instr.opcode = "XOR" then execute_xor instr mc
  else if instr.opcode = "INC" then execute_inc instr mc
  else if instr.opcode = "DEC" then execute_dec instr mc
  else if instr.opcode = "LSL" then execute_lsl instr mc
  else if instr.opcode = "LSR" then execute_lsr instr mc
  else if instr.opcode = "CMP" then execute_cmp instr mc
  else if instr.opcode = "CMI" then execute_cmi instr mc
  else if instr.opcode = "JMP" then execute_jmp instr mc
  else if instr.opcode = "JPE" then execute_jpe instr mc
  else if instr.opcode = "JPN" then execute_jpn instr mc
  else Except.error { kind := ErrKind.pyValueError,
                      message := "No executor for opcode: " ++ instr.opcode }

/-! ### Runner (src/core/runner.py) -/

/-- The `RunOptions` dataclass with its defaults. -/
structure RunOptions where
  memory_size : Nat := 256
  start_address : Int := 200
  max_steps : Nat := 10000
  word_bits : Nat := 16
  signed : Bool := true
  trace : Bool := true
  trace_watch : List Int := []
  trace_include_ix : Bool := false
  trace_include_flag : Bool := false
  trace_include_io : Bool := true
  initial_memory : List (Int × Int) := []
deriving DecidableEq, Repr

def defaultRunOptions : RunOptions := {}

/-- One trace row, with the fields `to_dict` would emit already reduced to
`none` when their include flag is off (`mem` keeps integer keys where Python
uses `str(addr)`). -/
structure TraceRow where
  step : Nat
  addr : Int
  acc : Int
  mem : List (Int × Int)
  ix : Option Int := none
  flag : Option Bool := none
  in_code : Option Int := none
  out_code : Option Int := none
  instr_text : String := ""
deriving DecidableEq, Repr

/-- `cpu.get_state()`. -/
structure FinalState where
  acc : Int
  ix : Int
  pc : Int
  flag : Option Bool
deriving DecidableEq, Repr

/-- The `RunResult` dataclass (`error` doubles as Python's `ErrorInfo`). -/
structure RunResult where
  status : String
  output_text : String
  steps_executed : Nat
  final_state : FinalState
  trace_watch : List Int
  trace : List TraceRow
  error : Option CASMError := none
deriving DecidableEq, Repr

/-- The runner loop's local variables: the shared context, `steps_executed`,
`trace_rows` and `current_instr`. -/
structure LoopState where
  mach : Machine
  steps : Nat
  trace_rows : List TraceRow
  cur : Option Instruction
deriving DecidableEq, Repr

/-- How the fetch-execute loop ended: fell out of the `while`, or an
exception carrying the state at the raise. -/
inductive LoopOutcome where
  | success (st : LoopState)
  | failure (e : CASMError) (st : LoopState)
deriving DecidableEq, Repr

/-- The loop state an outcome carries. -/
def LoopOutcome.state : LoopOutcome → LoopState
  | LoopOutcome.success st => st
  | LoopOutcome.failure _ st => st

/-- One iteration of the fetch-execute loop (runner.py lines 154-199). -/
def runStep (prog : ParsedProgram) (opts : RunOptions) (st : LoopState) :
    Except (CASMError × LoopState) LoopState :=
  match lookupA prog.instructions st.mach.cpu.pc with
  | none =>
    Except.error
      ({ kind := ErrKind.runtimeErr,
         message := "No instruction at address " ++ toString st.mach.cpu.pc,
         step := (st.steps + 1 : Nat), addr := st.mach.cpu.pc }, st)
  | some current_instr =>
    -- cpu.ir = f"{opcode} {operand or ''}".strip()
    let cpu1 := { st.mach.cpu with
                  ir := asStr (pyStrip
                    (current_instr.opcode ++ " " ++ current_instr.operand.getD "").toList) }
    let instr_addr := cpu1.pc
    let buf1 := st.mach.buf.reset_io_codes
    let st1 : LoopState :=
      { st with
        mach := { cpu := cpu1, mem := st.mach.mem, buf := buf1 },
        cur := some current_instr }
    match execute_instruction current_instr st1.mach with
    | Except.error e => Except.error (e, st1)
    | Except.ok (mc2, new_pc) =>
      let cpu3 := { mc2.cpu with pc := match new_pc with
                                       | some a => a
                                       | none => mc2.cpu.pc + 1 }
      let steps' := st.steps + 1
      let rows' :=
        if opts.trace then
          st.trace_rows ++
            [{ step := steps', addr := instr_addr, acc := cpu3.acc,
               mem := mc2.mem.get_watched opts.trace_watch,
               ix := if opts.trace_include_ix then some cpu3.ix else none,
               flag := if opts.trace_include_flag then cpu3.flag else none,
               in_code := if opts.trace_include_io then mc2.buf.last_in_code else none,
               out_code := if opts.trace_include_io then mc2.buf.last_out_code else none,
               instr_text := current_instr.clean_text }]
        else st.trace_rows
      Except.ok { mach := { cpu := cpu3, mem := mc2.mem, buf := mc2.buf },
                  steps := steps', trace_rows := rows', cur := some current_instr }

/-- The `while not cpu.halted and steps_executed < max_steps` loop; the fuel
is `max_steps - steps_executed`, so fuel 0 is exactly the exhausted guard. -/
def runLoop (prog : ParsedProgram) (opts : RunOptions) :
    Nat → LoopState → LoopOutcome
  | 0, st => LoopOutcome.success st
  | fuel + 1, st =>
    if st.mach.cpu.halted then LoopOutcome.success st
    else
      match runStep prog opts st with
      | Except.error (e, st') => LoopOutcome.failure e st'
      | Except.ok st' => runLoop prog opts fuel st'

/-- Runner.py lines 140-145: write each program data initializer into memory
(a raise here is NOT caught by `run_program`) and append its address to the
watch list when absent. -/
def mergeInitialMemory :
    List (Int × Int) → Memory → List Int → Except (CASMError × List Int) (Memory × List Int)
  | [], mem, watch => Except.ok (mem, watch)
  | (addr, val) :: rest, mem, watch =>
    match mem.write addr val with
    | Except.error e => Except.error (e, watch)
    | Except.ok mem' =>
      let watch' := if addr ∈ watch then watch else watch ++ [addr]
      mergeInitialMemory rest mem' watch'

/-- The `except CASMError` handler (runner.py lines 209-216) plus the final
`RunResult` construction; a Python built-in exception is re-raised. -/
def handleLoopFailure (opts : RunOptions) (e : CASMError) (st : LoopState) :
    Except CASMError RunResult × RunOptions :=
  if isCASMKind e.kind then
    let e' : CASMError :=
      { e with
        step := (st.steps : Nat),
        addr := match st.cur with
                | some i => i.addr
                | none => e.addr,
        source_line_no := match st.cur with
                          | some i => some i.source_line_no
                          | none => e.source_line_no,
        source_text := match st.cur with
                       | some i => some i.source_text
                       | none => e.source_text }
    (Except.ok { status := "error", output_text := st.mach.buf.get_output,
                 steps_executed := st.steps,
                 final_state := { acc := st.mach.cpu.acc, ix := st.mach.cpu.ix,
                                  pc := st.mach.cpu.pc, flag := st.mach.cpu.flag },
                 trace_watch := opts.trace_watch, trace := st.trace_rows,
                 error := some e' },
     opts)
  else (Except.error e, opts)

/-- `run_program(program_text, input_text, options)`. The second component
is the caller's `options` object as the call leaves it (`trace_watch` is
mutated in place); `Except.error` is an exception propagating out of
`run_program`. -/
def run_program (program_text : String) (input_text : String)
    (options : RunOptions) : Except CASMError RunResult × RunOptions :=
  let cpu : CPU := { word_bits := options.word_bits, signed := options.signed }
  let memory := Memory.init options.memory_size options.word_bits options.signed
    options.initial_memory
  let buf : IOBuffer := { input := input_text.toList }
  match parse_program program_text options.start_address [] with
  | Except.error e =>
    (Except.ok { status := "error", output_text := "", steps_executed := 0,
                 final_state := { acc := cpu.acc, ix := cpu.ix, pc := cpu.pc, flag := cpu.flag },
                 trace_watch := options.trace_watch, trace := [], error := some e },
     options)
  | Except.ok program =>
    match mergeInitialMemory program.initial_memory memory options.trace_watch with
    | Except.error (e, watchPartial) =>
      -- the raise escapes run_program; the appends made so far stay in options
      (Except.error e, { options with trace_watch := watchPartial })
    | Except.ok (memory', watch) =>
      let options' := { options with trace_watch := sortInts watch }
      let cpu' := { cpu with pc := program.start_address }
      let st0 : LoopState :=
        { mach := { cpu := cpu', mem := memory', buf := buf },
          steps := 0, trace_rows := [], cur := none }
      match runLoop program options' options'.max_steps st0 with
      | LoopOutcome.failure e st => handleLoopFailure options' e st
      | LoopOutcome.success st =>
        if st.steps ≥ options'.max_steps ∧ ¬st.mach.cpu.halted then
          handleLoopFailure options'
            { kind := ErrKind.stepLimit,
              message := "Step limit exceeded: " ++ toString options'.max_steps,
              step := (st.steps : Nat), addr := st.mach.cpu.pc }
            st
        else
          (Except.ok { status := "ok", output_text := st.mach.buf.get_output,
                       steps_executed := st.steps,
                       final_state := { acc := st.mach.cpu.acc, ix := st.mach.cpu.ix,
                                        pc := st.mach.cpu.pc, flag := st.mach.cpu.flag },
                       trace_watch := options'.trace_watch, trace := st.trace_rows,
                       error := none },
           options')

/-! ### Concrete values used by the theorems and witnesses below -/

/-- A 16-bit signed CPU as `run_program`'s defaults build it. -/
def cpu16s : CPU := { word_bits := 16, signed := true }

/-- A 16-bit unsigned CPU. -/
def cpu16u : CPU := { word_bits := 16, signed := false }

/-- A 16-bit signed memory (normalization does not look at `size`/`data`). -/
def mem16s : Memory := { size := 0, word_bits := 16, signed := true, data := [] }

/-- A 16-bit unsigned memory. -/
def mem16u : Memory := { size := 0, word_bits := 16, signed := false, data := [] }

/-- What `parse_program "LOOP: JMP LOOP" 200 []` produces for its one line. -/
def jmpInstr : Instruction :=
  { addr := 200, opcode := "JMP", operand := some "LOOP", operand_value := some 200,
    operand_type := "direct", source_line_no := 1, source_text := "LOOP: JMP LOOP",
    clean_text := "JMP LOOP" }

/-- What `parse_program "LOOP: JMP LOOP" 200 []` produces. -/
def jmpLoopProg : ParsedProgram :=
  { instructions := [(200, jmpInstr)], labels := [("LOOP", 200)], initial_memory := [],
    start_address := 200, end_address := 200 }

/-- The default options with the step budget set to `n`. -/
def jmpOpts (n : Nat) : RunOptions := { defaultRunOptions with max_steps := n }

/-- The CPU state while the `LOOP: JMP LOOP` run loops (only `ir` varies). -/
def jmpCpu (irs : String) : CPU :=
  { word_bits := 16, signed := true, acc := 0, ix := 0, pc := 200, flag := none,
    ir := irs, halted := false }

/-- The memory of the `LOOP: JMP LOOP` run (never written). -/
def jmpMem : Memory := Memory.init 256 16 true []

/-- The I/O buffer of the `LOOP: JMP LOOP` run (empty input, nothing emitted). -/
def jmpBuf : IOBuffer := { input := [] }

/-- The trace row the `LOOP: JMP LOOP` run appends at step `k`. -/
def jmpRow (k : Nat) : TraceRow :=
  { step := k, addr := 200, acc := 0, mem := [], instr_text := "JMP LOOP" }

/-- The loop state of the `LOOP: JMP LOOP` run: `s` steps done, trace `t`,
instruction register `irs`, current instruction `cur`. -/
def jmpState (irs : String) (s : Nat) (t : List TraceRow) (cur : Option Instruction) :
    LoopState :=
  { mach := { cpu := jmpCpu irs, mem := jmpMem, buf := jmpBuf },
    steps := s, trace_rows := t, cur := cur }

/-- C7 witness: state before an explicitly addressed line. -/
def c7stA : P2State :=
  { instructions := [], initial_memory := [], labels := [], current_addr := 200 }

/-- C7 witness: state after `pass2Step true c7stA 1 "300 LDM #1"`. -/
def c7stA' : P2State :=
  { instructions := [(300,
      { addr := 300, opcode := "LDM", operand := some "#1", operand_value := some 1,
        operand_type := "immediate", source_line_no := 1, source_text := "300 LDM #1",
        clean_text := "LDM #1" })],
    initial_memory := [], labels := [], current_addr := 301 }

/-- C7 witness: state before an address-less line. -/
def c7stB : P2State :=
  { instructions := [], initial_memory := [], labels := [], current_addr := 210 }

/-- C7 witness: state after `pass2Step true c7stB 2 "LDM #7"`. -/
def c7stB' : P2State :=
  { instructions := [(210,
      { addr := 210, opcode := "LDM", operand := some "#7", operand_value := some 7,
        operand_type := "immediate", source_line_no := 2, source_text := "LDM #7",
        clean_text := "LDM #7" })],
    initial_memory := [], labels := [], current_addr := 211 }

/-- C10 witness options: one watched address supplied by the caller. -/
def c10opts : RunOptions := { defaultRunOptions with trace_watch := [90] }

/-- C10 witness: `parse_program "80 7\nEND" 200 []`. -/
def c10prog : ParsedProgram :=
  { instructions := [(81,
      { addr := 81, opcode := "END", operand := none, operand_value := none,
        operand_type := "none", source_line_no := 2, source_text := "END",
        clean_text := "END" })],
    labels := [], initial_memory := [(80, 7)], start_address := 81, end_address := 81 }

/-- C10 witness: the result of `run_program "80 7\nEND" "" c10opts`. -/
def c10res : RunResult :=
  { status := "ok", output_text := "", steps_executed := 1,
    final_state := { acc := 0, ix := 0, pc := 82, flag := none },
    trace_watch := [80, 90],
    trace := [{ step := 1, addr := 81, acc := 0, mem := [(80, 7), (90, 0)],
                instr_text := "END" }],
    error := none }

/-- C10 witness: the caller's options object after the call. -/
def c10optsOut : RunOptions := { defaultRunOptions with trace_watch := [80, 90] }

/-- C1 witness: a machine whose flag is set to true. -/
def machFlagTrue : Machine :=
  { cpu := { cpu16s with flag := some true }, mem := mem16s, buf := { input := [] } }

/-- C1 witness: a machine whose flag is unset. -/
def machFlagUnset : Machine :=
  { cpu := cpu16s, mem := mem16s, buf := { input := [] } }

/-- C9 witness: a machine whose accumulator holds 3. -/
def mach3 : Machine :=
  { cpu := { cpu16s with acc := 3 }, mem := mem16s, buf := { input := [] } }

/-- C9 witness: the instruction `LSL #2`. -/
def lslWitInstr : Instruction :=
  { addr := 201, opcode := "LSL", operand := some "#2", operand_value := some 2,
    operand_type := "immediate", source_line_no := 2, source_text := "LSL #2",
    clean_text := "LSL #2" }

/-- The claim's formula for LSL: the unsigned-masked accumulator shifted left
by `n` bits and masked back to the word width (`(ACC & mask) << n & mask`,
written over `Nat`). -/
def lslSpecAcc (mc : Machine) (n : Int) : Nat :=
  ((mc.cpu.acc % wordModulus mc.cpu).toNat * 2 ^ n.toNat) % 2 ^ mc.cpu.word_bits

/-- The claim's formula for LSR: the unsigned-masked accumulator shifted
right by `n` bits, masked back to the word width. -/
def lsrSpecAcc (mc : Machine) (n : Int) : Nat :=
  ((mc.cpu.acc % wordModulus mc.cpu).toNat / 2 ^ n.toNat) % 2 ^ mc.cpu.word_bits

/-- C2 witness: the result of `run_program "LDM #42\nEND" "" defaultRunOptions`. -/
def w42res : RunResult :=
  { status := "ok", output_text := "", steps_executed := 2,
    final_state := { acc := 42, ix := 0, pc := 202, flag := none },
    trace_watch := [],
    trace := [{ step := 1, addr := 200, acc := 42, mem := [], instr_text := "LDM #42" },
              { step := 2, addr := 201, acc := 42, mem := [], instr_text := "END" }],
    error := none }

/-! ## Theorems

Helper lemmas first, then one named theorem (plus witness or counterexample)
per claim of CLAIMS.json. -/

/-- `Memory.normalize` is the same computation as `CPU.normalize` at the same
width and signedness (the Python classes duplicate the code verbatim). -/
theorem Memory.normalize_eq_cpu (m : Memory) (v : Int) :
    m.normalize v =
      CPU.normalize { word_bits := m.word_bits, signed := m.signed } v := rfl

/-- Range of `CPU.normalize` in signed mode. -/
theorem CPU.normalize_range_signed (c : CPU) (hw : 1 ≤ c.word_bits)
    (hs : c.signed = true) (x : Int) :
    -(2 ^ (c.word_bits - 1)) ≤ c.normalize x
      ∧ c.normalize x ≤ 2 ^ (c.word_bits - 1) - 1 := by
  have hp : (0 : Int) < 2 ^ c.word_bits := by positivity
  have h0 : 0 ≤ x % 2 ^ c.word_bits := Int.emod_nonneg x (ne_of_gt hp)
  have h1 : x % 2 ^ c.word_bits < 2 ^ c.word_bits := Int.emod_lt_of_pos x hp
  have h2 : (2 : Int) ^ c.word_bits = 2 ^ (c.word_bits - 1) * 2 := by
    conv_lhs => rw [show c.word_bits = (c.word_bits - 1) + 1 from
      (Nat.succ_pred_eq_of_pos hw).symm]
    rw [pow_succ]
  have h3 : (0 : Int) < 2 ^ (c.word_bits - 1) := by positivity
  unfold CPU.normalize CPU.max_val
  simp only [hs, true_and, if_true]
  by_cases hgt : x % 2 ^ c.word_bits > 2 ^ (c.word_bits - 1) - 1
  · simp only [hgt, if_true]
    constructor <;> omega
  · simp only [hgt, if_false]
    constructor <;> omega

/-- Range of `CPU.normalize` in unsigned mode. -/
theorem CPU.normalize_range_unsigned (c : CPU) (hs : c.signed = false) (x : Int) :
    0 ≤ c.normalize x ∧ c.normalize x ≤ 2 ^ c.word_bits - 1 := by
  have hp : (0 : Int) < 2 ^ c.word_bits := by positivity
  have h0 : 0 ≤ x % 2 ^ c.word_bits := Int.emod_nonneg x (ne_of_gt hp)
  have h1 : x % 2 ^ c.word_bits < 2 ^ c.word_bits := Int.emod_lt_of_pos x hp
  unfold CPU.normalize CPU.max_val
  simp only [hs, Bool.false_eq_true, false_and, if_false]
  constructor <;> omega

/-- A value already in the representable range is a fixed point of
`CPU.normalize`. -/
theorem CPU.normalize_fixed (c : CPU) (hw : 1 ≤ c.word_bits) (v : Int)
    (h : (c.signed = true → -(2 ^ (c.word_bits - 1)) ≤ v ∧ v ≤ 2 ^ (c.word_bits - 1) - 1)
       ∧ (c.signed = false → 0 ≤ v ∧ v ≤ 2 ^ c.word_bits - 1)) :
    c.normalize v = v := by
  have hp : (0 : Int) < 2 ^ c.word_bits := by positivity
  have h2 : (2 : Int) ^ c.word_bits = 2 ^ (c.word_bits - 1) * 2 := by
    conv_lhs => rw [show c.word_bits = (c.word_bits - 1) + 1 from
      (Nat.succ_pred_eq_of_pos hw).symm]
    rw [pow_succ]
  have h3 : (0 : Int) < 2 ^ (c.word_bits - 1) := by positivity
  simp only [CPU.normalize, CPU.max_val]
  by_cases hs : c.signed = true
  · obtain ⟨hl, hu⟩ := h.1 hs
    simp only [hs, if_true, true_and]
    by_cases hv : 0 ≤ v
    · have hm : v % 2 ^ c.word_bits = v := Int.emod_eq_of_lt hv (by omega)
      rw [hm]
      have hno : ¬ v > 2 ^ (c.word_bits - 1) - 1 := by omega
      simp only [hno, if_false]
    · have hm : v % 2 ^ c.word_bits = v + 2 ^ c.word_bits := by
        have step : (v + 2 ^ c.word_bits * 1) % 2 ^ c.word_bits = v % 2 ^ c.word_bits :=
          Int.add_mul_emod_self_left v (2 ^ c.word_bits) 1
        rw [mul_one] at step
        rw [← step]
        exact Int.emod_eq_of_lt (by omega) (by omega)
      rw [hm]
      have hyes : v + 2 ^ c.word_bits > 2 ^ (c.word_bits - 1) - 1 := by omega
      simp only [hyes, if_true]
      omega
  · have hs' : c.signed = false := by
      cases hb : c.signed
      · rfl
      · exact absurd hb hs
    obtain ⟨hl, hu⟩ := h.2 hs'
    have hm : v % 2 ^ c.word_bits = v := Int.emod_eq_of_lt hl (by omega)
    simp only [hs', Bool.false_eq_true, false_and, if_false, hm]

/-- `CPU.normalize` is idempotent for any positive width. -/
theorem CPU.normalize_idem (c : CPU) (hw : 1 ≤ c.word_bits) (x : Int) :
    c.normalize (c.normalize x) = c.normalize x := by
  apply c.normalize_fixed hw
  constructor
  · intro hs
    exact c.normalize_range_signed hw hs x
  · intro hs
    exact c.normalize_range_unsigned hs x

/-- C5: for every integer x, every word width w from 8 to 64 and both
signedness modes, `normalize (normalize x) = normalize x`, for the CPU
register model's `normalize` and for the Memory model's `normalize`. -/
theorem C5_normalize_idempotent (c : CPU) (m : Memory) (x : Int)
    (hc1 : 8 ≤ c.word_bits) (hc2 : c.word_bits ≤ 64)
    (hm1 : 8 ≤ m.word_bits) (hm2 : m.word_bits ≤ 64) :
    c.normalize (c.normalize x) = c.normalize x
      ∧ m.normalize (m.normalize x) = m.normalize x := by
  refine ⟨c.normalize_idem (by omega) x, ?_⟩
  rw [Memory.normalize_eq_cpu, Memory.normalize_eq_cpu]
  exact CPU.normalize_idem { word_bits := m.word_bits, signed := m.signed }
    ((by omega : 1 ≤ m.word_bits)) x

/-- C5 witness: the idempotence theorem applied at width 16, both models,
x = 123456. -/
theorem C5_normalize_idempotent_witness :
    cpu16s.normalize (cpu16s.normalize 123456) = cpu16s.normalize 123456
      ∧ mem16u.normalize (mem16u.normalize 123456) = mem16u.normalize 123456 :=
  C5_normalize_idempotent cpu16s mem16u 123456 (by decide) (by decide)
    (by decide) (by decide)

/-- C6: every value stored through normalization lies in
`[-2^(w-1), 2^(w-1)-1]` when signed and `[0, 2^w-1]` when unsigned, for
registers (CPU) and memory cells alike; at 16 bits, `32767 + 1` normalizes
to `-32768` signed, and `65535 + 1` normalizes to `0` unsigned. -/
theorem C6_normalize_bounds (c : CPU) (m : Memory) (x : Int)
    (hc : 1 ≤ c.word_bits) (hm : 1 ≤ m.word_bits) :
    ((c.signed = true →
        -(2 ^ (c.word_bits - 1)) ≤ c.normalize x
          ∧ c.normalize x ≤ 2 ^ (c.word_bits - 1) - 1)
      ∧ (c.signed = false → 0 ≤ c.normalize x ∧ c.normalize x ≤ 2 ^ c.word_bits - 1)
      ∧ (m.signed = true →
          -(2 ^ (m.word_bits - 1)) ≤ m.normalize x
            ∧ m.normalize x ≤ 2 ^ (m.word_bits - 1) - 1)
      ∧ (m.signed = false → 0 ≤ m.normalize x ∧ m.normalize x ≤ 2 ^ m.word_bits - 1))
    ∧ cpu16s.normalize (32767 + 1) = -32768
    ∧ cpu16u.normalize (65535 + 1) = 0
    ∧ mem16s.normalize (32767 + 1) = -32768
    ∧ mem16u.normalize (65535 + 1) = 0 := by
  refine ⟨⟨fun hs => c.normalize_range_signed hc hs x,
           fun hs => c.normalize_range_unsigned hs x, fun hs => ?_, fun hs => ?_⟩,
          by decide, by decide, by decide, by decide⟩
  · rw [Memory.normalize_eq_cpu]
    exact CPU.normalize_range_signed { word_bits := m.word_bits, signed := m.signed } hm hs x
  · rw [Memory.normalize_eq_cpu]
    exact CPU.normalize_range_unsigned { word_bits := m.word_bits, signed := m.signed } hs x

/-- C6 witness: the bounds theorem applied to the 16-bit signed CPU and the
16-bit unsigned memory at x = 40000. -/
theorem C6_normalize_bounds_witness :
    ((cpu16s.signed = true →
        -(2 ^ (cpu16s.word_bits - 1)) ≤ cpu16s.normalize 40000
          ∧ cpu16s.normalize 40000 ≤ 2 ^ (cpu16s.word_bits - 1) - 1)
      ∧ (cpu16s.signed = false →
          0 ≤ cpu16s.normalize 40000 ∧ cpu16s.normalize 40000 ≤ 2 ^ cpu16s.word_bits - 1)
      ∧ (mem16u.signed = true →
          -(2 ^ (mem16u.word_bits - 1)) ≤ mem16u.normalize 40000
            ∧ mem16u.normalize 40000 ≤ 2 ^ (mem16u.word_bits - 1) - 1)
      ∧ (mem16u.signed = false →
          0 ≤ mem16u.normalize 40000 ∧ mem16u.normalize 40000 ≤ 2 ^ mem16u.word_bits - 1))
    ∧ cpu16s.normalize (32767 + 1) = -32768
    ∧ cpu16u.normalize (65535 + 1) = 0
    ∧ mem16s.normalize (32767 + 1) = -32768
    ∧ mem16u.normalize (65535 + 1) = 0 :=
  C6_normalize_bounds cpu16s mem16u 40000 (by decide) (by decide)

/-- C1: JPE jumps to its target exactly when the comparison flag is true and
JPN exactly when it is false (otherwise execution falls through); with the
flag unset either instruction raises the conditional-jump-without-compare
error, so the one-instruction program `JPE 200` ends with that error and
`steps_executed = 0`. -/
theorem C1_conditional_jumps :
    (∀ (i : Instruction) (mc : Machine) (b : Bool), mc.cpu.flag = some b →
        execute_jpe i mc = Except.ok (mc, if b then i.operand_value else none)
          ∧ execute_jpn i mc = Except.ok (mc, if b then none else i.operand_value))
    ∧ (∀ (i : Instruction) (mc : Machine), mc.cpu.flag = none →
        execute_jpe i mc =
          Except.error { kind := ErrKind.jumpWithoutCompare,
                         message := "JPE executed without prior comparison" }
          ∧ execute_jpn i mc =
            Except.error { kind := ErrKind.jumpWithoutCompare,
                           message := "JPN executed without prior comparison" })
    ∧ ((run_program "JPE 200" "" defaultRunOptions).1.toOption.map fun r =>
        (r.status, r.error.map CASMError.kind, r.steps_executed))
      = some ("error", some ErrKind.jumpWithoutCompare, 0) := by
  refine ⟨fun i mc b hb => ?_, fun i mc hn => ?_, by decide⟩
  · cases b <;> simp [execute_jpe, execute_jpn, hb]
  · simp [execute_jpe, execute_jpn, hn]

/-- C1 witness: the characterization applied at a concrete machine with the
flag true, the flag unset, and the concrete `JPE 200` run. -/
theorem C1_conditional_jumps_witness :
    execute_jpe jmpInstr machFlagTrue = Except.ok (machFlagTrue, some 200)
    ∧ execute_jpe jmpInstr machFlagUnset =
        Except.error { kind := ErrKind.jumpWithoutCompare,
                       message := "JPE executed without prior comparison" }
    ∧ ((run_program "JPE 200" "" defaultRunOptions).1.toOption.map fun r =>
        (r.status, r.error.map CASMError.kind, r.steps_executed))
      = some ("error", some ErrKind.jumpWithoutCompare, 0) := by
  refine ⟨?_, ?_, C1_conditional_jumps.2.2⟩
  · exact (C1_conditional_jumps.1 jmpInstr machFlagTrue true rfl).1
  · exact (C1_conditional_jumps.2.1 jmpInstr machFlagUnset rfl).1

/-- C3 (counter-evidence, code bug): a program defining the label `FOO` on
two different lines parses successfully — the second definition silently
wins — because the first pass checks duplicates only against the
pre-supplied label dict, which it never extends, and the second pass
overwrites without checking. The claimed duplicate-label parse error is
never raised. -/
theorem C3_duplicate_label_accepted :
    ((parse_program "FOO: LDM #1\nFOO: LDM #2" 200 []).toOption.map fun p =>
      (lookupS p.labels "FOO",
       (lookupA p.instructions 200).map Instruction.opcode,
       (lookupA p.instructions 201).map Instruction.opcode))
    = some (some 201, some "LDM", some "LDM") := by decide

/-- C4 (counter-evidence, code bug): a data initializer at address 300 with
the default 256-word memory makes `run_program` raise `MemoryAccessError`
out of the function (the initializer merge sits outside both try blocks),
instead of returning a status-"error" `RunResult`. -/
theorem C4_oob_initializer_escapes :
    (run_program "300 5\nEND" "" defaultRunOptions).1 =
      Except.error { kind := ErrKind.memoryAccess,
                     message := "Memory address out of range: 300" } := by decide

/-- C8: an immediate binary literal whose characters after the `B`/`b`
prefix are not a non-empty string of `0`/`1` digits parses to the
invalid-binary-literal error (shown on the exact literal text the immediate
branch passes, namely the operand with its `#` removed); end to end,
`LDM #B102` fails with that error, whose kind is distinct from the
invalid-operand (not-numeric) kind. -/
theorem C8_invalid_binary_literal :
    (∀ (pre : Char) (bits : List Char) (n : Nat) (src : List Char),
        (pre = 'B' ∨ pre = 'b') →
        pyStrip (pre :: bits) = pre :: bits →
        (bits.isEmpty || !(bits.all fun b => b = '0' || b = '1')) = true →
        parseNumericLiteralL (pre :: bits) n src true =
          NumLitOut.invalidBinary
            { kind := ErrKind.invalidBinaryLiteral,
              message := "Invalid binary literal: " ++ asStr (pre :: bits),
              source_line_no := some n, source_text := some (asStr src) })
    ∧ parse_program "LDM #B102\nEND" 200 [] =
        Except.error { kind := ErrKind.invalidBinaryLiteral,
                       message := "Invalid binary literal: B102",
                       source_line_no := some 1, source_text := some "LDM #B102" }
    ∧ ErrKind.invalidBinaryLiteral ≠ ErrKind.invalidOperand := by
  refine ⟨fun pre bits n src hpre hstrip hmal => ?_, by decide, by decide⟩
  rcases hpre with h | h <;> subst h <;>
    simp [parseNumericLiteralL, hstrip, hmal]

/-- C8 witness: the malformed-binary lemma applied to the literal `B102`
(the digit 2 is not a binary digit), plus the kind distinction. -/
theorem C8_invalid_binary_literal_witness :
    parseNumericLiteralL "B102".toList 1 "LDM #B102".toList true =
      NumLitOut.invalidBinary
        { kind := ErrKind.invalidBinaryLiteral,
          message := "Invalid binary literal: " ++ asStr "B102".toList,
          source_line_no := some 1, source_text := some (asStr "LDM #B102".toList) }
    ∧ ErrKind.invalidBinaryLiteral ≠ ErrKind.invalidOperand := by
  refine ⟨?_, C8_invalid_binary_literal.2.2⟩
  exact C8_invalid_binary_literal.1 'B' "102".toList 1 "LDM #B102".toList
    (Or.inl rfl) (by decide) (by decide)

/-- The normalization of 0 is 0 at every width and signedness. -/
theorem CPU.normalize_zero (c : CPU) : c.normalize 0 = 0 := by
  have h3 : (0 : Int) < 2 ^ (c.word_bits - 1) := by positivity
  simp only [CPU.normalize, CPU.max_val, Int.zero_emod]
  have : ¬ (c.signed = true ∧
      (0 : Int) > (if c.signed = true then 2 ^ (c.word_bits - 1) - 1
                   else 2 ^ c.word_bits - 1)) := by
    rintro ⟨hs, hgt⟩
    rw [if_pos hs] at hgt
    omega
  rw [if_neg this]

/-- C9: with a valid (non-negative immediate) shift amount n, LSL stores
`((ACC & mask) << n) & mask` and LSR stores `((ACC & mask) >> n) & mask`
through normalization (masking written as `% 2^w` over `Nat`); when
`n ≥ word_bits` the stored accumulator is exactly 0; and the program
`LDM #B00000011 / LSL #2 / END` ends with accumulator 12. -/
theorem C9_logical_shifts (i : Instruction) (mc : Machine) (n : Int)
    (ht : i.operand_type = "immediate") (hv : i.operand_value = some n) (hn : 0 ≤ n) :
    execute_lsl i mc = Except.ok ({ mc with cpu := mc.cpu.set_acc (lslSpecAcc mc n) }, none)
    ∧ execute_lsr i mc = Except.ok ({ mc with cpu := mc.cpu.set_acc (lsrSpecAcc mc n) }, none)
    ∧ ((mc.cpu.word_bits : Int) ≤ n →
        execute_lsl i mc = Except.ok ({ mc with cpu := { mc.cpu with acc := 0 } }, none)
        ∧ execute_lsr i mc = Except.ok ({ mc with cpu := { mc.cpu with acc := 0 } }, none))
    ∧ ((run_program "LDM #B00000011\nLSL #2\nEND" "" defaultRunOptions).1.toOption.map
        fun r => (r.status, r.final_state.acc)) = some ("ok", 12) := by
  have hamount : get_shift_amount i = Except.ok n := by
    rw [get_shift_amount, if_neg, hv]
    · simp only [Option.getD_some]
      rw [if_neg (by omega)]
    · rw [ht, hv]
      simp
  have hmodpos : (0 : Int) < wordModulus mc.cpu := by
    rw [wordModulus]; positivity
  have haccnn : 0 ≤ mc.cpu.acc % wordModulus mc.cpu :=
    Int.emod_nonneg _ (ne_of_gt hmodpos)
  have hacclt : mc.cpu.acc % wordModulus mc.cpu < wordModulus mc.cpu :=
    Int.emod_lt_of_pos _ hmodpos
  have hcastpow : ((2 ^ mc.cpu.word_bits : Nat) : Int) = wordModulus mc.cpu := by
    rw [wordModulus]; push_cast; ring
  have haccbound : (mc.cpu.acc % wordModulus mc.cpu).toNat < 2 ^ mc.cpu.word_bits := by
    omega
  constructor
  · -- LSL: both implementation branches against the one claim formula
    simp only [execute_lsl, hamount, bind, Except.bind, lslSpecAcc]
    by_cases hge : (mc.cpu.word_bits : Int) ≤ n
    · rw [if_pos (by omega)]
      have hwn : mc.cpu.word_bits ≤ n.toNat := by omega
      have hdvd : 2 ^ mc.cpu.word_bits ∣
          (mc.cpu.acc % wordModulus mc.cpu).toNat * 2 ^ n.toNat :=
        Dvd.dvd.mul_left (pow_dvd_pow 2 hwn) _
      rw [Nat.mod_eq_zero_of_dvd hdvd]
      norm_num
    · rw [if_neg (by omega)]
  constructor
  · -- LSR: the quotient is below 2^w, so the claim formula's outer mask is redundant
    simp only [execute_lsr, hamount, bind, Except.bind, lsrSpecAcc]
    have hqlt : (mc.cpu.acc % wordModulus mc.cpu).toNat / 2 ^ n.toNat
        < 2 ^ mc.cpu.word_bits :=
      lt_of_le_of_lt (Nat.div_le_self _ _) haccbound
    by_cases hge : (mc.cpu.word_bits : Int) ≤ n
    · rw [if_pos (by omega)]
      have hwn : mc.cpu.word_bits ≤ n.toNat := by omega
      have hzero : (mc.cpu.acc % wordModulus mc.cpu).toNat / 2 ^ n.toNat = 0 :=
        Nat.div_eq_of_lt (lt_of_lt_of_le haccbound (Nat.pow_le_pow_right (by omega) hwn))
      rw [hzero, Nat.zero_mod]
      norm_num
    · rw [if_neg (by omega), Nat.mod_eq_of_lt hqlt]
  constructor
  · -- shift amount at least the word width stores exactly 0
    intro hge
    have hset : mc.cpu.set_acc 0 = { mc.cpu with acc := 0 } := by
      rw [CPU.set_acc, mc.cpu.normalize_zero]
    constructor
    · simp only [execute_lsl, hamount, bind, Except.bind]
      rw [if_pos (by omega), hset]
    · simp only [execute_lsr, hamount, bind, Except.bind]
      rw [if_pos (by omega), hset]
  · decide

/-- C9 witness: the shift theorem applied to `LSL #2` on a 16-bit machine
with accumulator 3. -/
theorem C9_logical_shifts_witness :
    execute_lsl lslWitInstr mach3 =
      Except.ok ({ mach3 with cpu := mach3.cpu.set_acc (lslSpecAcc mach3 2) }, none)
    ∧ execute_lsr lslWitInstr mach3 =
      Except.ok ({ mach3 with cpu := mach3.cpu.set_acc (lsrSpecAcc mach3 2) }, none)
    ∧ ((mach3.cpu.word_bits : Int) ≤ 2 →
        execute_lsl lslWitInstr mach3 =
          Except.ok ({ mach3 with cpu := { mach3.cpu with acc := 0 } }, none)
        ∧ execute_lsr lslWitInstr mach3 =
          Except.ok ({ mach3 with cpu := { mach3.cpu with acc := 0 } }, none))
    ∧ ((run_program "LDM #B00000011\nLSL #2\nEND" "" defaultRunOptions).1.toOption.map
        fun r => (r.status, r.final_state.acc)) = some ("ok", 12) :=
  C9_logical_shifts lslWitInstr mach3 2 rfl rfl (by decide)

/-- Updating one key of an association list leaves every other key's lookup
unchanged. -/
theorem lookupA_setA_ne {β : Type} (l : List (Int × β)) (k a : Int) (v : β)
    (h : a ≠ k) : lookupA (setA l k v) a = lookupA l a := by
  have hka : ¬ k = a := fun hk => h hk.symm
  induction l with
  | nil => simp [setA, lookupA, hka]
  | cons p t ih =>
    obtain ⟨k0, v0⟩ := p
    by_cases hk : k0 = k
    · subst hk
      simp [setA, lookupA, hka]
    · simp only [setA, hk, if_false, lookupA]
      by_cases ha : k0 = a
      · simp [ha]
      · simp [ha, ih]

/-- C7: in the second parser pass, a line carrying an explicit address A
leaves the sequential counter at A + 1 (so the next address-less line lands
at A + 1); an address-less non-blank line is placed at the current counter
and advances it by one; and concretely `"200 LDM #5\nLDM #10"` parses with
the second instruction (`LDM` with immediate 10) at address 201. -/
theorem C7_mixed_addressing :
    (∀ (st : P2State) (n : Nat) (line : List Char) (A : Nat) (rest : List Char)
        (st' : P2State),
        matchAddr (pyStrip (stripCommentL line)) = some (A, rest) →
        pass2Step true st n line = Except.ok st' →
        st'.current_addr = (A : Int) + 1)
    ∧ (∀ (he : Bool) (st : P2State) (n : Nat) (line : List Char) (st' : P2State),
        matchAddr (pyStrip (stripCommentL line)) = none →
        (pyStrip (stripCommentL line)).isEmpty = false →
        pass2Step he st n line = Except.ok st' →
        st'.current_addr = st.current_addr + 1
          ∧ ∀ a : Int, a ≠ st.current_addr →
              lookupA st'.instructions a = lookupA st.instructions a)
    ∧ ((parse_program "200 LDM #5\nLDM #10" 200 []).toOption.map fun p =>
        ((lookupA p.instructions 200).map fun i => (i.opcode, i.operand_value),
         (lookupA p.instructions 201).map fun i => (i.opcode, i.operand_value)))
      = some (some ("LDM", some 5), some ("LDM", some 10)) := by
  refine ⟨fun st n line A rest st' hma hok => ?_,
          fun he st n line st' hma hne hok => ?_, by decide⟩
  · have hne : (pyStrip (stripCommentL line)).isEmpty = false := by
      cases hsc : pyStrip (stripCommentL line) with
      | nil => rw [hsc] at hma; simp [matchAddr] at hma
      | cons a l => rfl
    simp only [pass2Step, hne, Bool.false_eq_true, if_false, hma, not_true,
      if_false] at hok
    rcases hlb : matchLabel (pyStrip rest) with _ | ⟨name, r⟩ <;>
      simp only [hlb, not_true, if_false] at hok <;>
      repeat' split at hok
    all_goals
      first
        | (obtain rfl := Except.ok.inj hok; simp)
        | simp at hok
  · simp only [pass2Step, hne, Bool.false_eq_true, if_false, hma] at hok
    rcases hlb : matchLabel (pyStrip (stripCommentL line)) with _ | ⟨name, r⟩ <;>
      simp only [hlb] at hok <;>
      repeat' split at hok
    all_goals
      first
        | (obtain rfl := Except.ok.inj hok;
           refine ⟨by cases he <;> simp, fun a ha => ?_⟩ <;>
           simp [lookupA_setA_ne _ _ _ _ ha])
        | simp at hok

/-- C7 witness: the pass-2 lemmas applied to `300 LDM #1` after counter 200
(lands the counter at 301) and to the address-less `LDM #7` at counter 210
(placed at 210, counter 211, other addresses untouched), plus the concrete
mixed program. -/
theorem C7_mixed_addressing_witness :
    c7stA'.current_addr = 301
    ∧ c7stB'.current_addr = c7stB.current_addr + 1
    ∧ lookupA c7stB'.instructions 5 = lookupA c7stB.instructions 5
    ∧ ((parse_program "200 LDM #5\nLDM #10" 200 []).toOption.map fun p =>
        ((lookupA p.instructions 200).map fun i => (i.opcode, i.operand_value),
         (lookupA p.instructions 201).map fun i => (i.opcode, i.operand_value)))
      = some (some ("LDM", some 5), some ("LDM", some 10)) := by
  have hb := C7_mixed_addressing.2.1 true c7stB 2 "LDM #7".toList c7stB'
    (by decide) (by decide) (by decide)
  refine ⟨?_, hb.1, hb.2 5 (by decide), C7_mixed_addressing.2.2⟩
  exact C7_mixed_addressing.1 c7stA 1 "300 LDM #1".toList 300 "LDM #1".toList c7stA'
    (by decide) (by decide)

/-- A successful fetch-execute iteration advances `steps_executed` by one. -/
theorem runStep_ok_steps (prog : ParsedProgram) (opts : RunOptions) (st st' : LoopState)
    (h : runStep prog opts st = Except.ok st') : st'.steps = st.steps + 1 := by
  simp only [runStep] at h
  repeat' split at h
  all_goals
    first
      | (obtain rfl := Except.ok.inj h; rfl)
      | simp at h

/-- A failing fetch-execute iteration leaves `steps_executed` unchanged. -/
theorem runStep_err_steps (prog : ParsedProgram) (opts : RunOptions) (st : LoopState)
    (e : CASMError) (st' : LoopState)
    (h : runStep prog opts st = Except.error (e, st')) : st'.steps = st.steps := by
  simp only [runStep] at h
  repeat' split at h
  all_goals
    first
      | (obtain ⟨-, rfl⟩ := Prod.mk.inj (Except.error.inj h); rfl)
      | simp at h

/-- The loop can add at most `fuel` steps. -/
theorem runLoop_steps_le (prog : ParsedProgram) (opts : RunOptions) :
    ∀ (fuel : Nat) (st : LoopState),
      (runLoop prog opts fuel st).state.steps ≤ st.steps + fuel := by
  intro fuel
  induction fuel with
  | zero => intro st; simp [runLoop, LoopOutcome.state]
  | succ m ih =>
    intro st
    simp only [runLoop]
    split
    · simp [LoopOutcome.state]
    · cases hstep : runStep prog opts st with
      | error pe =>
        obtain ⟨e, st1⟩ := pe
        have h1 := runStep_err_steps prog opts st e st1 hstep
        simp [LoopOutcome.state, h1]
      | ok st1 =>
        have h1 := runStep_ok_steps prog opts st st1 hstep
        have h2 := ih st1
        change (runLoop prog opts m st1).state.steps ≤ st.steps + (m + 1)
        omega


/-- The loop-budget bound phrased on a named outcome. -/
theorem runLoop_outcome_steps_le (prog : ParsedProgram) (opts : RunOptions)
    (fuel : Nat) (st : LoopState) (out : LoopOutcome)
    (h : runLoop prog opts fuel st = out) : out.state.steps ≤ st.steps + fuel := by
  rw [← h]
  exact runLoop_steps_le prog opts fuel st

/-- Whatever the program, a run that returns (rather than raising) executed
at most `max_steps` instructions. -/
theorem run_program_steps_le (text inp : String) (opts : RunOptions) (r : RunResult)
    (o' : RunOptions) (h : run_program text inp opts = (Except.ok r, o')) :
    r.steps_executed ≤ opts.max_steps := by
  simp only [run_program] at h
  cases hp : parse_program text opts.start_address [] with
  | error e =>
    simp only [hp] at h
    obtain ⟨h1, -⟩ := Prod.mk.inj h
    obtain rfl := Except.ok.inj h1
    exact Nat.zero_le _
  | ok program =>
    simp only [hp] at h
    cases hm : mergeInitialMemory program.initial_memory
        (Memory.init opts.memory_size opts.word_bits opts.signed opts.initial_memory)
        opts.trace_watch with
    | error pe =>
      obtain ⟨e, w⟩ := pe
      simp only [hm] at h
      obtain ⟨h1, -⟩ := Prod.mk.inj h
      exact absurd h1 (by simp)
    | ok p =>
      obtain ⟨memory', watch⟩ := p
      simp only [hm] at h
      cases hl : runLoop program { opts with trace_watch := sortInts watch }
          opts.max_steps
          { mach := { cpu := { word_bits := opts.word_bits, signed := opts.signed,
                               pc := program.start_address },
                      mem := memory', buf := { input := inp.toList } },
            steps := 0, trace_rows := [], cur := none } with
      | failure e st =>
        have hbound := runLoop_outcome_steps_le _ _ _ _ _ hl
        simp only [LoopOutcome.state] at hbound
        simp only [hl, handleLoopFailure] at h
        split at h
        · obtain ⟨h1, -⟩ := Prod.mk.inj h
          obtain rfl := Except.ok.inj h1
          simpa using hbound
        · obtain ⟨h1, -⟩ := Prod.mk.inj h
          exact absurd h1 (by simp)
      | success st =>
        have hbound := runLoop_outcome_steps_le _ _ _ _ _ hl
        simp only [LoopOutcome.state] at hbound
        simp only [hl] at h
        split at h
        · simp only [handleLoopFailure] at h
          split at h
          · obtain ⟨h1, -⟩ := Prod.mk.inj h
            obtain rfl := Except.ok.inj h1
            simpa using hbound
          · obtain ⟨h1, -⟩ := Prod.mk.inj h
            exact absurd h1 (by simp)
        · obtain ⟨h1, -⟩ := Prod.mk.inj h
          obtain rfl := Except.ok.inj h1
          simpa using hbound


/-- `LOOP: JMP LOOP` parses to a single self-jump at address 200. -/
theorem jmp_parse : parse_program "LOOP: JMP LOOP" 200 [] = Except.ok jmpLoopProg := by
  decide

/-- One iteration of the `LOOP: JMP LOOP` run: execute the jump at 200, stay
at 200, count one more step, append one trace row. -/
theorem jmp_step (n : Nat) (irs : String) (s : Nat) (t : List TraceRow)
    (cur : Option Instruction) :
    runStep jmpLoopProg (jmpOpts n) (jmpState irs s t cur)
      = Except.ok (jmpState "JMP LOOP" (s + 1) (t ++ [jmpRow (s + 1)]) (some jmpInstr)) := by
  rfl


/-- Burning `fuel` iterations of the `LOOP: JMP LOOP` run adds exactly
`fuel` steps and never halts or fails. -/
theorem jmp_loop_inv (n : Nat) :
    ∀ (fuel : Nat) (irs : String) (s : Nat) (t : List TraceRow)
      (cur : Option Instruction),
      ∃ irs' t' cur',
        runLoop jmpLoopProg (jmpOpts n) fuel (jmpState irs s t cur)
          = LoopOutcome.success (jmpState irs' (s + fuel) t' cur') := by
  intro fuel
  induction fuel with
  | zero => intro irs s t cur; exact ⟨irs, t, cur, rfl⟩
  | succ m ih =>
    intro irs s t cur
    obtain ⟨irs', t', cur', hrec⟩ := ih "JMP LOOP" (s + 1) (t ++ [jmpRow (s + 1)]) (some jmpInstr)
    refine ⟨irs', t', cur', ?_⟩
    have hh : (jmpState irs s t cur).mach.cpu.halted = false := rfl
    simp only [runLoop, hh, Bool.false_eq_true, if_false, jmp_step n irs s t cur]
    rw [hrec]
    have : s + 1 + m = s + (m + 1) := by omega
    rw [this]

/-- `run_program` on `LOOP: JMP LOOP` reduces to its fetch-execute loop on
the parsed self-jump program. -/
theorem run_program_jmp (n : Nat) :
    run_program "LOOP: JMP LOOP" "" (jmpOpts n)
      = (match runLoop jmpLoopProg (jmpOpts n) n (jmpState "" 0 [] none) with
         | LoopOutcome.failure e st => handleLoopFailure (jmpOpts n) e st
         | LoopOutcome.success st =>
           if st.steps ≥ n ∧ ¬st.mach.cpu.halted then
             handleLoopFailure (jmpOpts n)
               { kind := ErrKind.stepLimit,
                 message := "Step limit exceeded: " ++ toString n,
                 step := (st.steps : Nat), addr := st.mach.cpu.pc } st
           else
             (Except.ok { status := "ok", output_text := st.mach.buf.get_output,
                          steps_executed := st.steps,
                          final_state := { acc := st.mach.cpu.acc, ix := st.mach.cpu.ix,
                                           pc := st.mach.cpu.pc, flag := st.mach.cpu.flag },
                          trace_watch := [], trace := st.trace_rows, error := none },
              jmpOpts n)) := by
  rfl

/-- A budget of n on `LOOP: JMP LOOP` ends with the step-limit error after
exactly n steps. -/
theorem jmp_loop_budget_result (n : Nat) :
    ((run_program "LOOP: JMP LOOP" "" (jmpOpts n)).1.toOption.map fun r =>
      (r.status, r.error.map CASMError.kind, r.steps_executed))
    = some ("error", some ErrKind.stepLimit, n) := by
  obtain ⟨irs', t', cur', hrec⟩ := jmp_loop_inv n n "" 0 [] none
  rw [Nat.zero_add] at hrec
  rw [run_program_jmp n]
  simp only [hrec]
  have hcond : (jmpState irs' n t' cur').steps ≥ n
      ∧ ¬(jmpState irs' n t' cur').mach.cpu.halted := by
    constructor
    · show n ≥ n
      omega
    · show ¬(false = true)
      simp
  rw [if_pos hcond]
  simp only [handleLoopFailure]
  rw [if_pos (by decide : isCASMKind ErrKind.stepLimit = true)]
  cases cur' <;> rfl


/-- C2: the runner always terminates having executed at most `max_steps`
instructions (any run that returns a result reports
`steps_executed ≤ max_steps`), and a budget of n on the unconditional
infinite loop `LOOP: JMP LOOP` ends with status "error", the step-limit
error kind, and `steps_executed = n`, for every n. -/
theorem C2_step_budget :
    (∀ (text inp : String) (opts : RunOptions) (r : RunResult) (o' : RunOptions),
        run_program text inp opts = (Except.ok r, o') →
        r.steps_executed ≤ opts.max_steps)
    ∧ (∀ n : Nat,
        ((run_program "LOOP: JMP LOOP" "" (jmpOpts n)).1.toOption.map fun r =>
          (r.status, r.error.map CASMError.kind, r.steps_executed))
        = some ("error", some ErrKind.stepLimit, n)) :=
  ⟨run_program_steps_le, jmp_loop_budget_result⟩

/-- C2 witness: the budget bound applied to the concrete `LDM #42 / END` run
and the infinite-loop fact at n = 3. -/
theorem C2_step_budget_witness :
    w42res.steps_executed ≤ defaultRunOptions.max_steps
    ∧ ((run_program "LOOP: JMP LOOP" "" (jmpOpts 3)).1.toOption.map fun r =>
        (r.status, r.error.map CASMError.kind, r.steps_executed))
      = some ("error", some ErrKind.stepLimit, 3) :=
  ⟨C2_step_budget.1 "LDM #42\nEND" "" defaultRunOptions w42res defaultRunOptions
    (by decide),
   C2_step_budget.2 3⟩

/-- Merging the program's data initializers appends to the watch list
exactly the initializer addresses that were not already present:
membership in the final list is membership in the original list or among
the initializer addresses. -/
theorem mergeInitialMemory_watch (items : List (Int × Int)) :
    ∀ (mem : Memory) (watch : List Int) (mem' : Memory) (watch' : List Int),
      mergeInitialMemory items mem watch = Except.ok (mem', watch') →
      ∀ a : Int, a ∈ watch' ↔ a ∈ watch ∨ a ∈ items.map Prod.fst := by
  induction items with
  | nil =>
    intro mem watch mem' watch' h a
    obtain ⟨-, rfl⟩ := Prod.mk.inj (Except.ok.inj h)
    simp
  | cons p rest ih =>
    obtain ⟨addr, val⟩ := p
    intro mem watch mem' watch' h a
    simp only [mergeInitialMemory] at h
    cases hw : mem.write addr val with
    | error e => rw [hw] at h; exact absurd h (by simp)
    | ok mem2 =>
      rw [hw] at h
      have hrec := ih mem2 _ mem' watch' h a
      rw [hrec]
      by_cases haw : addr ∈ watch
      · simp only [haw, if_true, List.map_cons, List.mem_cons]
        constructor
        · rintro (h1 | h2)
          · exact Or.inl h1
          · exact Or.inr (Or.inr h2)
        · rintro (h1 | rfl | h2)
          · exact Or.inl h1
          · exact Or.inl haw
          · exact Or.inr h2
      · simp only [haw, if_false, List.mem_append, List.mem_singleton,
          List.map_cons, List.mem_cons, List.not_mem_nil, or_false]
        constructor
        · rintro ((h1 | rfl) | h2)
          · exact Or.inl h1
          · exact Or.inr (Or.inl rfl)
          · exact Or.inr (Or.inr h2)
        · rintro (h1 | rfl | h2)
          · exact Or.inl (Or.inl h1)
          · exact Or.inl (Or.inr rfl)
          · exact Or.inr h2

/-- C10: when the program parses and `run_program` returns (no exception),
the caller's options object comes back with `trace_watch` holding the
merged, sorted watch list: it is sorted, contains exactly the original
entries plus the parsed program's data-initializer addresses, and is the
very list the result carries. -/
theorem C10_trace_watch_mutation :
    ∀ (text inp : String) (opts : RunOptions) (program : ParsedProgram)
      (r : RunResult) (o' : RunOptions),
      parse_program text opts.start_address [] = Except.ok program →
      run_program text inp opts = (Except.ok r, o') →
      List.Sorted (· ≤ ·) o'.trace_watch
      ∧ (∀ a : Int, a ∈ o'.trace_watch ↔
          a ∈ opts.trace_watch ∨ a ∈ program.initial_memory.map Prod.fst)
      ∧ r.trace_watch = o'.trace_watch := by
  intro text inp opts program r o' hp h
  simp only [run_program, hp] at h
  cases hm : mergeInitialMemory program.initial_memory
      (Memory.init opts.memory_size opts.word_bits opts.signed opts.initial_memory)
      opts.trace_watch with
  | error pe =>
    obtain ⟨e, w⟩ := pe
    simp only [hm] at h
    exact absurd (Prod.mk.inj h).1 (by simp)
  | ok p =>
    obtain ⟨memory', watch⟩ := p
    simp only [hm] at h
    have hmem := mergeInitialMemory_watch program.initial_memory _ _ _ _ hm
    have hsorted : List.Sorted (· ≤ ·) (sortInts watch) :=
      List.sorted_insertionSort _ watch
    have hiff : ∀ a : Int, a ∈ sortInts watch ↔
        a ∈ opts.trace_watch ∨ a ∈ program.initial_memory.map Prod.fst := by
      intro a
      rw [sortInts, (List.perm_insertionSort _ watch).mem_iff]
      exact hmem a
    cases hl : runLoop program { opts with trace_watch := sortInts watch }
        opts.max_steps
        { mach := { cpu := { word_bits := opts.word_bits, signed := opts.signed,
                             pc := program.start_address },
                    mem := memory', buf := { input := inp.toList } },
          steps := 0, trace_rows := [], cur := none } with
    | failure e st =>
      simp only [hl, handleLoopFailure] at h
      split at h
      · obtain ⟨h1, h2⟩ := Prod.mk.inj h
        obtain rfl := Except.ok.inj h1
        subst h2
        exact ⟨hsorted, hiff, rfl⟩
      · exact absurd (Prod.mk.inj h).1 (by simp)
    | success st =>
      simp only [hl] at h
      split at h
      · simp only [handleLoopFailure] at h
        split at h
        · obtain ⟨h1, h2⟩ := Prod.mk.inj h
          obtain rfl := Except.ok.inj h1
          subst h2
          exact ⟨hsorted, hiff, rfl⟩
        · exact absurd (Prod.mk.inj h).1 (by simp)
      · obtain ⟨h1, h2⟩ := Prod.mk.inj h
        obtain rfl := Except.ok.inj h1
        subst h2
        exact ⟨hsorted, hiff, rfl⟩


/-- C10 witness: the mutation theorem applied to `"80 7\nEND"` run with a
caller-supplied watch list `[90]`: the options come back holding `[80, 90]`. -/
theorem C10_trace_watch_mutation_witness :
    List.Sorted (· ≤ ·) c10optsOut.trace_watch
    ∧ (80 ∈ c10optsOut.trace_watch ↔
        80 ∈ c10opts.trace_watch ∨ 80 ∈ c10prog.initial_memory.map Prod.fst)
    ∧ c10res.trace_watch = c10optsOut.trace_watch := by
  have h := C10_trace_watch_mutation "80 7\nEND" "" c10opts c10prog c10res c10optsOut
    (by decide) (by decide)
  exact ⟨h.1, h.2.1 80, h.2.2⟩

end Casm
